import Mathlib

/-!
Verification development for the GPU benchmark dispatcher (`benchmarks.py`).

The embedding models, from the source:
  * `product_dict` — cartesian expansion of parameter axes (lines 35-40);
  * `mergeVal` / `mergeEntries` / `resolve_and_merge` — the mergedeep-based
    template resolution of `generate_all_benchmarks` (lines 51-56), with the
    in-place mutation of the shared template made explicit by storing the
    merged value back into the templates mapping;
  * `generate_docker` / `generate_for_benchmark` — job-record generation
    (lines 63-71 and 80-160);
  * `run_cycle` — one reconciliation pass of the dispatcher (lines 171-213).

External effects are made explicit:
  * the live container list (`client.containers.list()`) is a `List String`
    of container names, in enumeration order;
  * GPU occupancy (`GPUStatCollection.new_query()`) is a stream
    `occ : Nat → Nat → Option Nat`: `occ q d` is the process count of device
    `d` reported by the (q+1)-th query of the pass (query 0 is the one taken
    at the start of `run_cycle`, lines 175-178; each PENDING row triggers a
    further query, lines 190-193).  `none` models a device index absent from
    the returned mapping (a Python `KeyError`);
  * `os.system` launches are recorded in the `launched` / `executed` fields
    rather than performed; `show_cmd`, which only prints, is omitted;
  * Python exceptions surface as `Except` errors: `RunErr.nameError` is the
    `NameError` raised at line 187 when the `container` loop variable was
    never bound, `RunErr.keyError d` the `KeyError` of line 198;
  * the `dmidecode` subprocess output (lines 126-137) and the timestamp of
    line 122 are parameters of `generate_docker`.

The `devices` CSV column is stored comma-joined in the file and parsed back
with `split(',')`/`int` in `run_cycle`; the embedding works with the parsed
`List Nat` on both sides.
-/

namespace Benchmarks

/-- Job status literals of the tracking table. -/
inductive Status where
  | PENDING
  | RUNNING
  | STOPPED
deriving DecidableEq, Repr

/-- One persisted row of the tracking file, with header
`benchmark_name, system_name, devices, docker_name, status, cmd`. -/
structure Row where
  benchmark_name : String
  system_name : String
  devices : List Nat
  docker_name : String
  status : Status
  cmd : String
deriving DecidableEq, Repr

/-- Exceptions that can escape one reconciliation pass. -/
inductive RunErr where
  | nameError
  | keyError (d : Nat)
deriving DecidableEq, Repr

/-- Running state of the row loop of `run_cycle`: the mutable dataframe,
the number of GPU queries issued so far, and the launches performed. -/
structure CycleState where
  cur : List Row
  queryIdx : Nat
  launched : List Nat
  executed : List String
deriving DecidableEq, Repr

/-- Result of one successful pass: the persisted table and the launches
(`launched` holds row indices, `executed` the shell commands passed to
`os.system`). -/
structure CycleResult where
  table : List Row
  launched : List Nat
  executed : List String
deriving DecidableEq, Repr

/-- `nb_processes` accumulation of lines 195-198: sum the process counts of
the row's devices, raising `KeyError` (carrying the offending device) when a
device index is absent from the occupancy mapping. -/
def sumDevices (occD : Nat → Option Nat) : List Nat → Except Nat Nat
  | [] => Except.ok 0
  | d :: ds =>
    match occD d with
    | none => Except.error d
    | some n => (sumDevices occD ds).map (fun m => n + m)

/-- `df.loc[df['docker_name']==c, ['status']] = 'STOPPED'` (line 187). -/
def stopMark (c : String) (rows : List Row) : List Row :=
  rows.map (fun x => if x.docker_name = c then { x with status := Status.STOPPED } else x)

/-- The container loop of lines 180-182: for each live container name, every
row with that `docker_name` is marked RUNNING. -/
def markRunning (live : List String) (rows : List Row) : List Row :=
  live.foldl
    (fun df c =>
      df.map (fun x => if x.docker_name = c then { x with status := Status.RUNNING } else x))
    rows

/-- Body of the row loop of lines 184-210 for one row `ir = (index, row)`.
The two `if` statements of the source are sequential, but a row's status is a
single value, so at most one of them fires and the translation nests them.
`lastC` is the value of the `container` loop variable left over from the
container loop (`none` when that loop never ran, in which case reading it
raises `NameError`). -/
def stepRow (live : List String) (lastC : Option String) (interactive_mode : Bool)
    (occ : Nat → Nat → Option Nat) (st : CycleState) (ir : Nat × Row) :
    Except RunErr CycleState :=
  if ir.2.status = Status.RUNNING ∧ ir.2.docker_name ∉ live then
    match lastC with
    | none => Except.error RunErr.nameError
    | some c => Except.ok { st with cur := stopMark c st.cur }
  else if ir.2.status = Status.PENDING then
    match sumDevices (occ st.queryIdx) ir.2.devices with
    | Except.error d => Except.error (RunErr.keyError d)
    | Except.ok n =>
      if n = 0 then
        let cmd := ir.2.cmd
        let cmd := if interactive_mode then cmd.replace " -d " " -it " else cmd
        Except.ok { st with queryIdx := st.queryIdx + 1,
                            launched := st.launched ++ [ir.1],
                            executed := st.executed ++ [cmd] }
      else
        Except.ok { st with queryIdx := st.queryIdx + 1 }
  else
    Except.ok st

/-- The row loop itself (`for index, row in df.iterrows()`): pandas
materialises the row snapshots before the body mutates `df`, so the loop
walks a fixed list of `(index, row)` pairs while the state carries the
mutable table. -/
def runRows (live : List String) (lastC : Option String) (interactive_mode : Bool)
    (occ : Nat → Nat → Option Nat) : List (Nat × Row) → CycleState → Except RunErr CycleState
  | [], st => Except.ok st
  | ir :: rest, st =>
    match stepRow live lastC interactive_mode occ st ir with
    | Except.error e => Except.error e
    | Except.ok st2 => runRows live lastC interactive_mode occ rest st2

/-- One reconciliation pass (`run_cycle`, lines 171-213): mark live rows
RUNNING, then walk the row snapshots; on success the final table is the one
persisted by `df.to_csv`.  An `Except.error` models a Python exception
propagating out of `run_cycle` before the table is persisted. -/
def run_cycle (table : List Row) (live : List String) (interactive_mode : Bool)
    (occ : Nat → Nat → Option Nat) : Except RunErr CycleResult :=
  let marked := markRunning live table
  match runRows live live.getLast? interactive_mode occ marked.enum
      { cur := marked, queryIdx := 1, launched := [], executed := [] } with
  | Except.error e => Except.error e
  | Except.ok st => Except.ok { table := st.cur, launched := st.launched, executed := st.executed }

/-- Number of PENDING rows in a list (used to index the occupancy queries a
prefix of the row loop has issued). -/
def countPending (rows : List Row) : Nat :=
  rows.countP (fun x => decide (x.status = Status.PENDING))

/-! Parameter expansion (`product_dict`, lines 35-40). -/

/-- itertools.product over a list of axes, rightmost axis varying fastest. -/
def product_ {α : Type} : List (List α) → List (List α)
  | [] => [[]]
  | v :: vs => v.flatMap (fun x => (product_ vs).map (fun tuple => x :: tuple))

/-- `product_dict` (lines 35-40): expand a mapping of parameter name to value
list into the list of all assignments, one value per parameter
(`dict(zip(keys, instance))` for each `instance` in the product). -/
def product_dict {α : Type} (axes : List (String × List α)) : List (List (String × α)) :=
  (product_ (axes.map (fun p => p.2))).map (fun inst => (axes.map (fun p => p.1)).zip inst)

/-! Job generation (`generate_docker`, lines 80-160, and the per-benchmark
parameter loop of `generate_all_benchmarks`, lines 63-71). -/

/-- Python str.format over the replacement mapping: each `{key}` placeholder
is replaced by its value (successful-format case; an unresolved placeholder
would raise KeyError in Python, which no modelled claim exercises). -/
def pythonFormat (template : String) (repl : List (String × String)) : String :=
  repl.foldl (fun s kv => s.replace ("\x7b" ++ kv.1 ++ "\x7d") kv.2) template

/-- `{**a, **b}`: values of `b` win, key order of `a` first. -/
def dictMerge (a b : List (String × String)) : List (String × String) :=
  a.map (fun kv => (kv.1, ((b.lookup kv.1).getD kv.2))) ++
    b.filter (fun kv => (a.lookup kv.1).isNone)

/-- json.dumps of the replacement mapping (string-valued rendering; only ever
interpolated into the WANDB_NOTES environment variable). -/
def jsonDumps (kvs : List (String × String)) : String :=
  "\x7b" ++ String.intercalate ", "
    (kvs.map (fun kv => "\"" ++ kv.1 ++ "\": \"" ++ kv.2 ++ "\"")) ++ "\x7d"

/-- dmidecode items queried at line 127. -/
def mem_items : List String :=
  ["Size", "Speed", "Manufacturer", "Type", "Configured Memory Speed", "Form Factor"]

/-- One entry of the `memory_info` list (lines 126-137); `dmidecode` is the
external `dmidecode --type 17 | grep ... | head -n 1` output per item, with
the `"{item}: "` prefix already stripped as in the source.  `unit in value`
is tested as `value.replace unit "" ≠ value`, which agrees with Python for
the non-empty unit strings used. -/
def mem_info_entry (dmidecode : String → String) (item : String) : String :=
  let value := dmidecode item
  let key := "mem_info_" ++ ((item.toLower).replace " " "_")
  let kv := ["MB", "MT/s"].foldl
    (fun (p : String × String) unit =>
      if (p.2.replace unit "") ≠ p.2 then
        (p.1 ++ "_" ++ (unit.replace "/" "_per_"), (p.2.replace unit "").trim)
      else p)
    (key, value)
  kv.1 ++ "=" ++ kv.2

/-- Python KeyError on a missing dictionary key. -/
inductive GenErr where
  | keyError (k : String)
deriving DecidableEq, Repr

/-- Dictionary subscript `m[k]`, raising KeyError when absent. -/
def getKey (m : List (String × String)) (k : String) : Except GenErr String :=
  match m.lookup k with
  | some v => Except.ok v
  | none => Except.error (GenErr.keyError k)

/-- The `wandb` section of the configuration. -/
structure WandbCfg where
  active : Bool
  additional_tags : List String
  key : String
  user : String
  project : String

/-- `docker.executable` of a benchmark configuration: working path and the
capability-name → launch-command-template mapping. -/
structure ExecutableCfg where
  path : String
  commands : List (String × String)

/-- `docker` section of a benchmark configuration. -/
structure DockerCfg where
  path : String
  dockerfile : String
  mounts : List (String × String)
  executable : ExecutableCfg

/-- One entry of the `systems` section. -/
structure SystemCfg where
  active : Bool
  devices_ids : List Nat
  compute_capabilities : List (String × Bool)

/-- Benchmark configuration; `π` is the shape of the `params` field (a
mapping of axes at expansion time, a concrete assignment inside
`generate_docker`). -/
structure BenchmarkCfg (π : Type) where
  active : Bool
  docker : DockerCfg
  params : π
  preparation : Option (List String)

/-- `generate_docker` (lines 80-160): produce the tracking rows appended for
one parameter assignment, one row per capability that is enabled on the
system and has a command template for this benchmark.  The `devices` column
holds the device ids whose comma-join is `NVIDIA_VISIBLE_DEVICES`. -/
def generate_docker (system_name : String) (system_config : SystemCfg)
    (benchmark_name : String) (benchmark_config : BenchmarkCfg (List (String × String)))
    (data_config : List (String × String)) (wandb_config : WandbCfg)
    (interactive_mode : Bool) (date : String) (dmidecode : String → String) :
    Except GenErr (List Row) := do
  let NB_CUDA_DEVICES := system_config.devices_ids.length
  let devices_ids := system_config.devices_ids.map toString
  let NVIDIA_VISIBLE_DEVICES := String.intercalate "," devices_ids
  let mounts ← benchmark_config.docker.mounts.foldlM
    (fun acc kv => do
      let hostPath ← getKey data_config kv.1
      pure (acc ++ "-v " ++ hostPath ++ ":" ++ kv.2 ++ " "))
    ""
  system_config.compute_capabilities.foldlM
    (fun experiments capPair => do
      let capability := capPair.1
      if capPair.2 then do
        let _ ← getKey benchmark_config.params "batch-size"
        let _ ← getKey benchmark_config.params "epochs"
        let extra_replacements : List (String × String) := [
          ("NVIDIA_VISIBLE_DEVICES", NVIDIA_VISIBLE_DEVICES),
          ("NB_CUDA_DEVICES", toString NB_CUDA_DEVICES),
          ("SYSTEM_NAME", system_name),
          ("BENCHMARK_NAME", benchmark_name),
          ("CAPABILITY", capability)]
        let cmd_replacements := dictMerge benchmark_config.params extra_replacements
        let benchmark_cmd :=
          match benchmark_config.preparation with
          | some preps =>
            preps.foldl (fun s p => s ++ pythonFormat p cmd_replacements ++ " && ") ""
          | none => ""
        match (benchmark_config.docker.executable.commands).lookup capability with
        | none => pure experiments
        | some template => do
          let benchmark_cmd := benchmark_cmd ++ pythonFormat template cmd_replacements
          let run_mode :=
            if interactive_mode then
              "it -v $PWD/" ++ benchmark_config.docker.path ++ ":"
                ++ benchmark_config.docker.executable.path
            else "d"
          let bs ← getKey cmd_replacements "batch-size"
          let ep ← getKey cmd_replacements "epochs"
          let lr ← getKey cmd_replacements "learning-rate"
          let run_name := benchmark_name ++ "-" ++ system_name ++ "-" ++ capability
            ++ "-B" ++ bs ++ "xE" ++ ep ++ "xLR" ++ lr
          let WANDB_NOTES := jsonDumps cmd_replacements
          let memory_info := mem_items.map (mem_info_entry dmidecode)
          let tags := String.intercalate "," memory_info
          let wandb :=
            if wandb_config.active then
              let additional_tags := String.intercalate "," wandb_config.additional_tags
              let tags := tags ++ "," ++ additional_tags
              "-e WANDB_API_KEY=" ++ wandb_config.key
                ++ " -e WANDB_NAME=\x27" ++ run_name ++ "-" ++ date
                ++ "\x27 -e WANDB_TAGS=\x27" ++ tags
                ++ "\x27 -e WANDB_NOTES=\x27" ++ WANDB_NOTES
                ++ "\x27 -e WANDB_ENTITY=" ++ wandb_config.user
                ++ " -e WANDB_PROJECT=" ++ wandb_config.project
            else ""
          let cmd := "docker run -" ++ run_mode ++ " --rm --ipc=host --name=" ++ run_name
            ++ " " ++ wandb ++ " " ++ mounts ++ " --gpus \x27device=" ++ NVIDIA_VISIBLE_DEVICES
            ++ "\x27 -w " ++ benchmark_config.docker.executable.path
            ++ " -e PRECISION=" ++ capability ++ " " ++ benchmark_name
            ++ " bash -c \x27" ++ benchmark_cmd ++ "\x27"
          pure (experiments ++ [{
            benchmark_name := benchmark_name,
            system_name := system_name,
            devices := system_config.devices_ids,
            docker_name := benchmark_name ++ "-" ++ system_name ++ "-" ++ capability,
            status := Status.PENDING,
            cmd := cmd }])
      else
        pure experiments)
    []

/-- Lines 63-71: expand the parameter axes and call `generate_docker` once
per assignment with a copy of the benchmark configuration whose `params` is
that assignment (`copy.copy` plus `params` reassignment); rows accumulate as
in the appended tracking file. -/
def generate_for_benchmark (system_name : String) (system_config : SystemCfg)
    (benchmark_name : String) (benchmark_config : BenchmarkCfg (List (String × List String)))
    (data_config : List (String × String)) (wandb_config : WandbCfg)
    (interactive_mode : Bool) (date : String) (dmidecode : String → String) :
    Except GenErr (List Row) :=
  (product_dict benchmark_config.params).foldlM
    (fun acc benchmark_params => do
      let rows ← generate_docker system_name system_config benchmark_name
        { active := benchmark_config.active, docker := benchmark_config.docker,
          params := benchmark_params, preparation := benchmark_config.preparation }
        data_config wandb_config interactive_mode date dmidecode
      pure (acc ++ rows))
    []

/-- Split a character list into space-separated tokens (accumulator holds the
current token reversed). -/
def splitTok : List Char → List Char → List (List Char)
  | [], acc => [acc.reverse]
  | c :: cs, acc =>
    if c = ' ' then acc.reverse :: splitTok cs [] else splitTok cs (c :: acc)

/-- Container name given to `docker run` via `--name=` in a launch command
(the token after `--name=`; launch commands never put spaces in the name). -/
def name_in_cmd (cmd : String) : String :=
  String.mk ((((splitTok cmd.toList []).filter
    (fun t => t.take 7 = "--name=".toList)).headD []).drop 7)

/-! Template resolution and deep merge (`generate_all_benchmarks`,
lines 51-56, and `mergedeep.merge`). -/

/-- YAML-style nested configuration value. -/
inductive Val where
  | str (s : String)
  | int (n : Int)
  | bool (b : Bool)
  | list (xs : List Val)
  | dict (xs : List (String × Val))

/-- Python-dict assignment `d[k] = v`: replace in place, else append. -/
def dictSet : List (String × Val) → String → Val → List (String × Val)
  | [], k, v => [(k, v)]
  | (k', v') :: rest, k, v =>
    if k' = k then (k, v) :: rest else (k', v') :: dictSet rest k v

mutual
/-- mergedeep `_deepmerge` of one source value onto one destination value
(default REPLACE strategy): when both are mappings, merge entry-wise;
otherwise the source value replaces the destination (lists included). -/
def mergeVal : Val → Val → Val
  | dv, Val.dict s =>
    match dv with
    | Val.dict dd => Val.dict (mergeEntries dd s)
    | _ => Val.dict s
  | _, v => v
termination_by structural _ v => v

/-- Merge the source dict entries into the destination dict, in source key
order, with Python-dict update semantics. -/
def mergeEntries : List (String × Val) → List (String × Val) → List (String × Val)
  | d, [] => d
  | d, (k, sv) :: rest =>
    let d' :=
      match d.lookup k with
      | some dv => dictSet d k (mergeVal dv sv)
      | none => dictSet d k sv
    mergeEntries d' rest
termination_by structural _ s => s
end

/-- Lines 51-56 of `generate_all_benchmarks`: resolve the benchmark's
template by name and `merge(benchmark_template, benchmark_config)`.  Because
`merge` mutates its destination — the very object stored in the templates
mapping — the mapping now holds the merged value; the function returns the
updated templates mapping together with `this_benchmark_config` (an alias of
the same merged object).  `none` models the KeyError of a missing template. -/
def resolve_and_merge (templates : List (String × Val))
    (benchmark_config : List (String × Val)) :
    Option (List (String × Val) × List (String × Val)) :=
  match benchmark_config.lookup "benchmark-template" with
  | some (Val.str tkey) =>
    match templates.lookup tkey with
    | some (Val.dict tmpl) =>
      let merged := mergeEntries tmpl benchmark_config
      some (dictSet templates tkey (Val.dict merged), merged)
    | _ => none
  | _ => none

/-- Top-level keys of a dict value. -/
def valKeys : Val → List String
  | Val.dict xs => xs.map Prod.fst
  | _ => []

/-! Helper lemmas about one reconciliation pass. -/

theorem markRunning_eq_map (live : List String) (rows : List Row) :
    markRunning live rows =
      rows.map (fun x =>
        if x.docker_name ∈ live then { x with status := Status.RUNNING } else x) := by
  induction live generalizing rows with
  | nil =>
    simp [markRunning]
  | cons c cs ih =>
    show markRunning cs
        (rows.map (fun x => if x.docker_name = c then { x with status := Status.RUNNING } else x))
        = _
    rw [ih, List.map_map]
    apply List.map_congr_left
    intro x _
    by_cases h1 : x.docker_name = c
    · subst h1
      simp
    · by_cases h2 : x.docker_name ∈ cs <;>
        simp [Function.comp, h1, h2]

/-- Complete case analysis of a successful `stepRow`. -/
theorem stepRow_ok_cases {live : List String} {lastC : Option String} {im : Bool}
    {occ : Nat → Nat → Option Nat} {st : CycleState} {ir : Nat × Row} {st2 : CycleState}
    (h : stepRow live lastC im occ st ir = Except.ok st2) :
    (ir.2.status = Status.PENDING ∧ ∃ n, sumDevices (occ st.queryIdx) ir.2.devices = Except.ok n ∧
        st2.cur = st.cur ∧ st2.queryIdx = st.queryIdx + 1 ∧
        st2.launched = (if n = 0 then st.launched ++ [ir.1] else st.launched))
    ∨ (ir.2.status ≠ Status.PENDING ∧ st2.queryIdx = st.queryIdx ∧ st2.launched = st.launched ∧
        (st2.cur = st.cur ∨ ∃ c, lastC = some c ∧ st2.cur = stopMark c st.cur)) := by
  unfold stepRow at h
  split at h
  · next hcond =>
    match lastC with
    | none => exact absurd h (by simp)
    | some c =>
      right
      refine ⟨(by rw [hcond.1]; intro hx; cases hx), ?_⟩
      simp at h
      rw [← h]
      exact ⟨rfl, rfl, Or.inr ⟨c, rfl, rfl⟩⟩
  · split at h
    · next hpend =>
      left
      refine ⟨hpend, ?_⟩
      match hsum : sumDevices (occ st.queryIdx) ir.2.devices with
      | Except.error d => rw [hsum] at h; exact absurd h (by simp)
      | Except.ok n =>
        rw [hsum] at h
        refine ⟨n, rfl, ?_⟩
        by_cases hn : n = 0
        · simp [hn] at h
          rw [← h]
          simp [hn]
        · simp [hn] at h
          rw [← h]
          simp [hn]
    · next hpend =>
      right
      simp at h
      rw [← h]
      exact ⟨hpend, rfl, rfl, Or.inl rfl⟩

/-- A successful fold only appends to `launched`, and every appended index is
an index occurring in the processed pair list. -/
theorem runRows_launched_mono {live : List String} {lastC : Option String} {im : Bool}
    {occ : Nat → Nat → Option Nat} :
    ∀ (L : List (Nat × Row)) (st st' : CycleState),
      runRows live lastC im occ L st = Except.ok st' →
      ∃ new, st'.launched = st.launched ++ new ∧ ∀ j ∈ new, j ∈ L.map Prod.fst := by
  intro L
  induction L with
  | nil =>
    intro st st' h
    simp [runRows] at h
    rw [← h]
    exact ⟨[], by simp⟩
  | cons ir rest ih =>
    intro st st' h
    rw [runRows] at h
    match hstep : stepRow live lastC im occ st ir with
    | Except.error e => rw [hstep] at h; exact absurd h (by simp)
    | Except.ok st2 =>
      rw [hstep] at h
      obtain ⟨new, hnew, hmem⟩ := ih st2 st' h
      rcases stepRow_ok_cases hstep with ⟨_, n, _, _, _, hl⟩ | ⟨_, _, hl, _⟩
      · by_cases hn : n = 0
        · rw [hn] at hl
          simp at hl
          refine ⟨ir.1 :: new, ?_, ?_⟩
          · rw [hnew, hl]; simp
          · intro j hj
            rcases List.mem_cons.mp hj with h1 | h1
            · simp [h1]
            · simp [hmem j h1]
        · rw [if_neg hn] at hl
          refine ⟨new, by rw [hnew, hl], ?_⟩
          intro j hj; simp [hmem j hj]
      · refine ⟨new, by rw [hnew, hl], ?_⟩
        intro j hj; simp [hmem j hj]

/-- A successful fold changes each table row only by possibly setting its
status to STOPPED, and preserves the table length. -/
theorem runRows_cur_frame {live : List String} {lastC : Option String} {im : Bool}
    {occ : Nat → Nat → Option Nat} :
    ∀ (L : List (Nat × Row)) (st st' : CycleState),
      runRows live lastC im occ L st = Except.ok st' →
      st'.cur.length = st.cur.length ∧
      ∀ (i : Nat) (r0 : Row), st.cur[i]? = some r0 →
        st'.cur[i]? = some r0 ∨ st'.cur[i]? = some { r0 with status := Status.STOPPED } := by
  intro L
  induction L with
  | nil =>
    intro st st' h
    simp [runRows] at h
    rw [← h]
    exact ⟨rfl, fun i r0 h0 => Or.inl h0⟩
  | cons ir rest ih =>
    intro st st' h
    rw [runRows] at h
    match hstep : stepRow live lastC im occ st ir with
    | Except.error e => rw [hstep] at h; exact absurd h (by simp)
    | Except.ok st2 =>
      rw [hstep] at h
      obtain ⟨hlen, hframe⟩ := ih st2 st' h
      have hcur : st2.cur = st.cur ∨ ∃ c, st2.cur = stopMark c st.cur := by
        rcases stepRow_ok_cases hstep with ⟨_, n, _, hc, _⟩ | ⟨_, _, _, hc⟩
        · exact Or.inl hc
        · rcases hc with hc | ⟨c, _, hc⟩
          · exact Or.inl hc
          · exact Or.inr ⟨c, hc⟩
      rcases hcur with hc | ⟨c, hc⟩
      · rw [hc] at hlen hframe
        exact ⟨hlen, hframe⟩
      · constructor
        · rw [hlen, hc]; simp [stopMark]
        · intro i r0 h0
          have h2 : st2.cur[i]? = some r0 ∨
              st2.cur[i]? = some { r0 with status := Status.STOPPED } := by
            rw [hc, stopMark, List.getElem?_map, h0]
            by_cases hd : r0.docker_name = c <;> simp [hd]
          rcases h2 with h2 | h2
          · exact hframe i r0 h2
          · rcases hframe i _ h2 with h3 | h3
            · exact Or.inr h3
            · exact Or.inr h3

/-- Main characterisation of the launch decision: the i-th snapshot row, when
PENDING, is launched exactly when the occupancy query issued for it (the
`st.queryIdx + countPending (rows.take i)`-th of the pass) reports zero
processes over the row\'s devices. -/
theorem runRows_launch_aux {live : List String} {lastC : Option String} {im : Bool}
    {occ : Nat → Nat → Option Nat} :
    ∀ (rows : List Row) (k : Nat) (st st' : CycleState),
      runRows live lastC im occ (rows.enumFrom k) st = Except.ok st' →
      (∀ j ∈ st.launched, j < k) →
      ∀ (i : Nat) (r : Row), rows[i]? = some r → r.status = Status.PENDING →
        ((k + i) ∈ st'.launched ↔
          sumDevices (occ (st.queryIdx + countPending (rows.take i))) r.devices = Except.ok 0) := by
  intro rows
  induction rows with
  | nil =>
    intro k st st' h hinv i r hi
    simp at hi
  | cons x xs ih =>
    intro k st st' h hinv i r hi hp
    rw [show List.enumFrom k (x :: xs) = (k, x) :: List.enumFrom (k + 1) xs from rfl,
      runRows] at h
    match hstep : stepRow live lastC im occ st (k, x) with
    | Except.error e => rw [hstep] at h; exact absurd h (by simp)
    | Except.ok st2 =>
      rw [hstep] at h
      match i with
      | 0 =>
        simp at hi
        subst hi
        rcases stepRow_ok_cases hstep with ⟨_, n, hsum, _, _, hl⟩ | ⟨hnp, _⟩
        · obtain ⟨new, hnew, hmem⟩ := runRows_launched_mono _ st2 st' h
          have hknotnew : k ∉ new := by
            intro hk
            have := hmem k hk
            rw [List.enumFrom_map_fst] at this
            rw [List.mem_range'] at this
            omega
          have hkst : k ∉ st.launched := fun hk => absurd (hinv k hk) (by omega)
          simp only [List.take_zero, countPending, List.countP_nil, Nat.add_zero]
          rw [hnew]
          constructor
          · intro hk
            rcases List.mem_append.mp hk with hk | hk
            · rw [hl] at hk
              by_cases hn : n = 0
              · rw [hn] at hsum; simpa using hsum
              · rw [if_neg hn] at hk; exact absurd hk hkst
            · exact absurd hk hknotnew
          · intro hz
            rw [hsum] at hz
            have hn : n = 0 := by
              have := Except.ok.inj hz
              omega
            rw [hl, hn]
            simp
        · exact absurd hp hnp
      | Nat.succ i' =>
        simp only [List.getElem?_cons_succ] at hi
        rcases stepRow_ok_cases hstep with ⟨hpend, n, hsum, _, hq, hl⟩ | ⟨hnp, hq, hl, _⟩
        · have hinv2 : ∀ j ∈ st2.launched, j < k + 1 := by
            intro j hj
            rw [hl] at hj
            by_cases hn : n = 0
            · rw [hn] at hj
              simp at hj
              rcases hj with hj | hj
              · exact Nat.lt_succ_of_lt (hinv j hj)
              · omega
            · rw [if_neg hn] at hj
              exact Nat.lt_succ_of_lt (hinv j hj)
          have := ih (k + 1) st2 st' h hinv2 i' r hi hp
          rw [show k + 1 + i' = k + (i' + 1) by omega] at this
          rw [this, hq]
          have : countPending ((x :: xs).take (i' + 1)) = countPending (xs.take i') + 1 := by
            have hpx : x.status = Status.PENDING := hpend
            simp [List.take_succ_cons, countPending, List.countP_cons, hpx]
          rw [this]
          have : st.queryIdx + (countPending (xs.take i') + 1)
              = st.queryIdx + 1 + countPending (xs.take i') := by omega
          rw [this]
        · have hinv2 : ∀ j ∈ st2.launched, j < k + 1 := by
            intro j hj
            rw [hl] at hj
            exact Nat.lt_succ_of_lt (hinv j hj)
          have := ih (k + 1) st2 st' h hinv2 i' r hi hp
          rw [show k + 1 + i' = k + (i' + 1) by omega] at this
          rw [this, hq]
          have : countPending ((x :: xs).take (i' + 1)) = countPending (xs.take i') := by
            have hpx : ¬ x.status = Status.PENDING := hnp
            simp [List.take_succ_cons, countPending, List.countP_cons, hpx]
          rw [this]

/-- Successful pass: extract the underlying fold run. -/
theorem run_cycle_ok_elim {table : List Row} {live : List String} {im : Bool}
    {occ : Nat → Nat → Option Nat} {res : CycleResult}
    (h : run_cycle table live im occ = Except.ok res) :
    ∃ st' : CycleState,
      runRows live live.getLast? im occ (markRunning live table).enum
          { cur := markRunning live table, queryIdx := 1, launched := [], executed := [] }
        = Except.ok st' ∧
      res.table = st'.cur ∧ res.launched = st'.launched := by
  have h' : (match runRows live live.getLast? im occ (markRunning live table).enum
      { cur := markRunning live table, queryIdx := 1, launched := [], executed := [] } with
    | Except.error e => Except.error e
    | Except.ok st =>
        Except.ok ({ table := st.cur, launched := st.launched, executed := st.executed } : CycleResult))
      = Except.ok res := h
  match hrr : runRows live live.getLast? im occ (markRunning live table).enum
      { cur := markRunning live table, queryIdx := 1, launched := [], executed := [] } with
  | Except.error e => rw [hrr] at h'; exact absurd h' (by simp)
  | Except.ok st' =>
    rw [hrr] at h'
    simp at h'
    exact ⟨st', rfl, by rw [← h'], by rw [← h']⟩

theorem sumDevices_ok_of_isSome (occD : Nat → Option Nat) :
    ∀ (ds : List Nat), (∀ d ∈ ds, (occD d).isSome) → ∃ n, sumDevices occD ds = Except.ok n := by
  intro ds
  induction ds with
  | nil => exact fun _ => ⟨0, rfl⟩
  | cons d ds ih =>
    intro h
    have hd : (occD d).isSome := h d (by simp)
    obtain ⟨m, hm⟩ := Option.isSome_iff_exists.mp hd
    obtain ⟨n, hn⟩ := ih (fun d' hd' => h d' (by simp [hd']))
    refine ⟨m + n, ?_⟩
    rw [sumDevices, hm, hn]
    rfl

/-- With no live containers and hence no bound `container` loop variable, the
row loop raises NameError at the first RUNNING snapshot row (earlier PENDING
rows query occupancy successfully under the `isSome` hypothesis). -/
theorem runRows_nameError (im : Bool) (occ : Nat → Nat → Option Nat) :
    ∀ (rows : List Row) (k : Nat) (st : CycleState),
      (∃ r ∈ rows, r.status = Status.RUNNING) →
      (∀ r ∈ rows, r.status = Status.PENDING → ∀ q, ∀ d ∈ r.devices, (occ q d).isSome) →
      runRows [] none im occ (rows.enumFrom k) st = Except.error RunErr.nameError := by
  intro rows
  induction rows with
  | nil =>
    intro k st h _
    simp at h
  | cons x xs ih =>
    intro k st hex hocc
    rw [show List.enumFrom k (x :: xs) = (k, x) :: List.enumFrom (k + 1) xs from rfl, runRows]
    by_cases hx : x.status = Status.RUNNING
    · have hcond : (k, x).2.status = Status.RUNNING ∧ (k, x).2.docker_name ∉ ([] : List String) :=
        ⟨hx, by simp⟩
      rw [stepRow, if_pos hcond]
    · have hex' : ∃ r ∈ xs, r.status = Status.RUNNING := by
        rcases hex with ⟨r, hr, hrs⟩
        rcases List.mem_cons.mp hr with h1 | h1
        · exact absurd (h1 ▸ hrs) hx
        · exact ⟨r, h1, hrs⟩
      have hocc' : ∀ r ∈ xs, r.status = Status.PENDING → ∀ q, ∀ d ∈ r.devices, (occ q d).isSome :=
        fun r hr => hocc r (List.mem_cons_of_mem _ hr)
      have hnotr : ¬ ((k, x).2.status = Status.RUNNING ∧
          (k, x).2.docker_name ∉ ([] : List String)) := by
        intro hc
        exact hx hc.1
      by_cases hxp : x.status = Status.PENDING
      · obtain ⟨n, hn⟩ := sumDevices_ok_of_isSome (occ st.queryIdx) x.devices
          (hocc x (by simp) hxp st.queryIdx)
        rw [stepRow, if_neg hnotr, if_pos (show (k, x).2.status = Status.PENDING from hxp)]
        rw [show sumDevices (occ st.queryIdx) (k, x).2.devices = Except.ok n from hn]
        by_cases hn0 : n = 0
        · simp only [hn0, if_pos rfl]
          exact ih (k + 1) _ hex' hocc'
        · simp only [if_neg hn0]
          exact ih (k + 1) _ hex' hocc'
      · rw [stepRow, if_neg hnotr, if_neg (show ¬ (k, x).2.status = Status.PENDING from hxp)]
        exact ih (k + 1) _ hex' hocc'

/-! Helper lemmas about the parameter expansion. -/

theorem product_length {α : Type} : ∀ (vs : List (List α)),
    (product_ vs).length = (vs.map List.length).prod := by
  intro vs
  induction vs with
  | nil => rfl
  | cons v vs ih =>
    show (v.flatMap (fun x => (product_ vs).map (fun tuple => x :: tuple))).length = _
    induction v with
    | nil => simp
    | cons y v' ihv =>
      simp only [List.flatMap_cons, List.length_append, List.length_map, ih] at *
      simp [List.map_cons, List.prod_cons] at *
      rw [ihv]
      ring

theorem mem_product_shape {α : Type} : ∀ (vs : List (List α)) (a : List α), a ∈ product_ vs →
    a.length = vs.length ∧ ∀ (i : Nat) (x : α), a[i]? = some x → ∃ l, vs[i]? = some l ∧ x ∈ l := by
  intro vs
  induction vs with
  | nil =>
    intro a ha
    simp [product_] at ha
    subst ha
    exact ⟨rfl, by intro i x h; simp at h⟩
  | cons v vs ih =>
    intro a ha
    simp only [product_, List.mem_flatMap, List.mem_map] at ha
    obtain ⟨x, hx, t, ht, rfl⟩ := ha
    obtain ⟨hlen, hidx⟩ := ih t ht
    constructor
    · simp [hlen]
    · intro i z hz
      match i with
      | 0 =>
        simp at hz
        subst hz
        exact ⟨v, by simp, hx⟩
      | Nat.succ j =>
        simp only [List.getElem?_cons_succ] at hz ⊢
        exact hidx j z hz

theorem product_nodup {α : Type} : ∀ (vs : List (List α)),
    (∀ l ∈ vs, l.Nodup) → (product_ vs).Nodup := by
  intro vs
  induction vs with
  | nil => intro _; simp [product_]
  | cons v vs ih =>
    intro h
    have hv : v.Nodup := h v (by simp)
    have hP : (product_ vs).Nodup := ih (fun l hl => h l (by simp [hl]))
    show (v.flatMap (fun x => (product_ vs).map (fun tuple => x :: tuple))).Nodup
    clear h
    induction v with
    | nil => simp
    | cons y v' ihv =>
      rw [List.flatMap_cons, List.nodup_append]
      refine ⟨?_, ?_, ?_⟩
      · exact hP.map (fun a b hab => by simpa using hab)
      · exact ihv (List.Nodup.of_cons hv)
      · intro u hu1 hu2
        simp only [List.mem_map] at hu1
        obtain ⟨t, _, rfl⟩ := hu1
        simp only [List.mem_flatMap, List.mem_map] at hu2
        obtain ⟨x, hx, t', _, heq⟩ := hu2
        injection heq with h1 h2
        have : y ∉ v' := (List.nodup_cons.mp hv).1
        exact this (h1 ▸ hx)

theorem product_getElem? {α : Type} (v : List α) (vs : List (List α)) (n : Nat) :
    (product_ (v :: vs))[n]? =
      ((v[n / (product_ vs).length]?).bind fun x =>
        ((product_ vs)[n % (product_ vs).length]?).map (fun tuple => x :: tuple)) := by
  by_cases hT : (product_ vs).length = 0
  · have hP : product_ vs = [] := List.length_eq_zero.mp hT
    simp only [product_, hP]
    simp
    refine le_trans (le_of_eq (List.sum_eq_zero ?_)) (Nat.zero_le n)
    intro m hm
    simp only [List.mem_map] at hm
    obtain ⟨y, _, rfl⟩ := hm
    rfl
  · have hT0 : 0 < (product_ vs).length := Nat.pos_of_ne_zero hT
    induction v generalizing n with
    | nil =>
      simp [product_]
    | cons y v' ihv =>
      simp only [product_, List.flatMap_cons]
      rw [List.getElem?_append]
      by_cases hn : n < (product_ vs).length
      · rw [if_pos (by simpa using hn)]
        rw [Nat.div_eq_of_lt hn, Nat.mod_eq_of_lt hn]
        simp [List.getElem?_map]
      · push_neg at hn
        rw [if_neg (by simpa using hn)]
        obtain ⟨m, rfl⟩ : ∃ m, n = m + (product_ vs).length :=
          ⟨n - (product_ vs).length, by omega⟩
        simp only [List.length_map]
        rw [Nat.add_sub_cancel]
        have hrest : (v'.flatMap (fun x => (product_ vs).map (fun tuple => x :: tuple)))
            = product_ (v' :: vs) := rfl
        rw [hrest, ihv m]
        rw [Nat.add_div_right _ hT0, Nat.add_mod_right]
        simp only [List.getElem?_cons_succ]

theorem zip_getElem? {β γ : Type} : ∀ (l1 : List β) (l2 : List γ) (i : Nat),
    (l1.zip l2)[i]? = (l1[i]?).bind fun a => (l2[i]?).map (fun b => (a, b)) := by
  intro l1
  induction l1 with
  | nil => intro l2 i; simp
  | cons a l1 ih =>
    intro l2 i
    cases l2 with
    | nil => simp
    | cons b l2 =>
      match i with
      | 0 => simp
      | Nat.succ j => simp [ih l2 j]

/-! Claim theorems. -/

/-- C1: for every tracking table and every (fixed) GPU occupancy mapping, a
PENDING record that stays PENDING in the snapshot (its docker_name is not a
live container name) is launched by a reconciliation pass iff the sum of
active compute process counts over exactly its assigned device set is zero.
The two concrete instances of the claim (devices {0,1} with occupancy
{0:0, 1:1} versus {0:0, 1:0}) are the witness. -/
theorem run_cycle_launch_iff (table : List Row) (live : List String) (im : Bool)
    (occF : Nat → Option Nat) (i : Nat) (r : Row) (res : CycleResult)
    (hrun : run_cycle table live im (fun _ => occF) = Except.ok res)
    (hi : table[i]? = some r) (hp : r.status = Status.PENDING)
    (hl : r.docker_name ∉ live) :
    i ∈ res.launched ↔ sumDevices occF r.devices = Except.ok 0 := by
  obtain ⟨st', hrr, htab, hlau⟩ := run_cycle_ok_elim hrun
  have hmi : (markRunning live table)[i]? = some r := by
    rw [markRunning_eq_map, List.getElem?_map, hi]
    simp [hl]
  have henum : (markRunning live table).enum = (markRunning live table).enumFrom 0 := rfl
  rw [henum] at hrr
  have := runRows_launch_aux (markRunning live table) 0 _ st' hrr (by simp) i r hmi hp
  rw [Nat.zero_add] at this
  rw [hlau, this]

/-- C1 witness: a PENDING record with devices [0, 1] is launched under
occupancy {0:0, 1:0} (left conjunct) and is not launched under occupancy
{0:0, 1:1} (right conjunct), via `run_cycle_launch_iff` at both inputs. -/
theorem run_cycle_launch_iff_witness :
    ((0 ∈ ([0] : List Nat)) ↔
      sumDevices (fun d => if d ≤ 1 then some 0 else none) [0, 1] = Except.ok 0)
    ∧ ((0 ∈ ([] : List Nat)) ↔
      sumDevices (fun d => if d = 1 then some 1 else if d = 0 then some 0 else none) [0, 1]
        = Except.ok 0) :=
  ⟨run_cycle_launch_iff [⟨"bn", "sy", [0, 1], "job", Status.PENDING, "cmd"⟩] [] false
      (fun d => if d ≤ 1 then some 0 else none) 0
      ⟨"bn", "sy", [0, 1], "job", Status.PENDING, "cmd"⟩
      ⟨[⟨"bn", "sy", [0, 1], "job", Status.PENDING, "cmd"⟩], [0], ["cmd"]⟩
      rfl rfl rfl (by simp),
    run_cycle_launch_iff [⟨"bn", "sy", [0, 1], "job", Status.PENDING, "cmd"⟩] [] false
      (fun d => if d = 1 then some 1 else if d = 0 then some 0 else none) 0
      ⟨"bn", "sy", [0, 1], "job", Status.PENDING, "cmd"⟩
      ⟨[⟨"bn", "sy", [0, 1], "job", Status.PENDING, "cmd"⟩], [], []⟩
      rfl rfl rfl (by simp)⟩

/-- C2 (code bug): line 187 marks `df.loc[df['docker_name']==container.name]`
STOPPED using the stale `container` loop variable instead of the current
row's docker_name.  On the table [("a", RUNNING), ("b", RUNNING)] with live
containers ["b"], the pass leaves the vanished record "a" RUNNING and marks
the still-live record "b" STOPPED — the exact opposite of the claim. -/
theorem run_cycle_stale_variable_bug :
    run_cycle
      [⟨"bn", "sy", [0], "a", Status.RUNNING, "ca"⟩,
        ⟨"bn", "sy", [1], "b", Status.RUNNING, "cb"⟩]
      ["b"] false (fun _ _ => some 0)
    = Except.ok ⟨[⟨"bn", "sy", [0], "a", Status.RUNNING, "ca"⟩,
        ⟨"bn", "sy", [1], "b", Status.STOPPED, "cb"⟩], [], []⟩ := rfl

/-- C3 (code bug): line 151 stores `f"{benchmark_name}-{system_name}-
{capability}"` as docker_name, without the numeric parameters.  In scenario A
(one system with devices [0], one benchmark, axes batch-size [32, 64],
epochs [1], learning-rate [0.001], one enabled capability) the generation
does produce exactly 2 PENDING records, but their docker_name values are
identical, not distinct. -/
theorem generate_docker_name_collision :
    (generate_for_benchmark "sys1"
        ⟨true, [0], [("fp32", true)]⟩ "mnist"
        ⟨true, ⟨"bpath", "Dockerfile", [], ⟨"/workspace", [("fp32", "python train.py")]⟩⟩,
          [("batch-size", ["32", "64"]), ("epochs", ["1"]), ("learning-rate", ["0.001"])],
          none⟩
        [] ⟨false, [], "", "", ""⟩ false "2024.01.01-00:00" (fun _ => "")).map
      (fun rows => (rows.length, rows.map (fun r => r.docker_name),
        rows.map (fun r => r.status)))
    = Except.ok (2, ["mnist-sys1-fp32", "mnist-sys1-fp32"],
        [Status.PENDING, Status.PENDING]) := rfl

/-- C4 (code bug): the container name passed via `--name=` is `run_name`
(which carries the `-B{batch}xE{epochs}xLR{lr}` suffix, line 121/144) while
the stored docker_name is the bare benchmark-system-capability string
(line 151), so they never agree (first conjunct), and a reconciliation pass
whose live set contains exactly the launched container's name leaves the
record PENDING instead of marking it RUNNING (second conjunct). -/
theorem generate_docker_container_name_mismatch :
    ((generate_docker "sys1" ⟨true, [0], [("fp32", true)]⟩ "mnist2"
        ⟨true, ⟨"bpath", "Dockerfile", [], ⟨"/workspace", [("fp32", "python train.py")]⟩⟩,
          [("batch-size", "32"), ("epochs", "1"), ("learning-rate", "0.001")].map id,
          none⟩
        [] ⟨false, [], "", "", ""⟩ false "2024.01.01-00:00" (fun _ => "")).map
      (fun rows => rows.map (fun r =>
        (name_in_cmd r.cmd, r.docker_name, decide (name_in_cmd r.cmd = r.docker_name))))
      = Except.ok [("mnist2-sys1-fp32-B32xE1xLR0.001", "mnist2-sys1-fp32", false)])
    ∧ ((generate_docker "sys1" ⟨true, [0], [("fp32", true)]⟩ "mnist2"
        ⟨true, ⟨"bpath", "Dockerfile", [], ⟨"/workspace", [("fp32", "python train.py")]⟩⟩,
          [("batch-size", "32"), ("epochs", "1"), ("learning-rate", "0.001")].map id,
          none⟩
        [] ⟨false, [], "", "", ""⟩ false "2024.01.01-00:00" (fun _ => "")).map
      (fun rows =>
        (run_cycle rows (rows.map (fun r => name_in_cmd r.cmd)) false (fun _ _ => some 1)).map
          (fun res => res.table.map (fun r => r.status)))
      = Except.ok (Except.ok [Status.PENDING])) :=
  ⟨rfl, rfl⟩

/-- C5 counterexample: the claim "a record whose status is STOPPED before the
pass still has status STOPPED after it" is false — a STOPPED record whose
docker_name ("b") is in the live container list is set back to RUNNING by the
container loop of lines 180-182. -/
theorem run_cycle_stopped_not_terminal_cex :
    ¬ (∀ (res : CycleResult),
        run_cycle [⟨"bn", "sy", [0], "b", Status.STOPPED, "c"⟩] ["b"] false
            (fun _ _ => some 1)
          = Except.ok res →
        ∀ (r1 : Row), res.table[0]? = some r1 → r1.status = Status.STOPPED) := by
  intro h
  have := h ⟨[⟨"bn", "sy", [0], "b", Status.RUNNING, "c"⟩], [], []⟩ rfl
    ⟨"bn", "sy", [0], "b", Status.RUNNING, "c"⟩ rfl
  exact absurd this (by decide)

/-- C5 amended theorem: one pass only rewrites statuses to RUNNING (possible
only for a record whose docker_name is in the live container set) or to
STOPPED — never to PENDING, and in particular never RUNNING→PENDING; but
STOPPED is not preserved: a STOPPED record whose container name is live is
marked RUNNING. -/
theorem run_cycle_status_frame (table : List Row) (live : List String) (im : Bool)
    (occ : Nat → Nat → Option Nat) (res : CycleResult)
    (hrun : run_cycle table live im occ = Except.ok res) :
    res.table.length = table.length ∧
    ∀ (i : Nat) (r0 : Row), table[i]? = some r0 →
      ∃ r1 : Row, res.table[i]? = some r1 ∧
        (r1 = r0 ∨ (r1 = { r0 with status := Status.RUNNING } ∧ r0.docker_name ∈ live) ∨
          r1 = { r0 with status := Status.STOPPED }) := by
  obtain ⟨st', hrr, htab, hlau⟩ := run_cycle_ok_elim hrun
  obtain ⟨hlen, hframe⟩ := runRows_cur_frame _ _ _ hrr
  constructor
  · rw [htab, hlen]
    simp [markRunning_eq_map]
  · intro i r0 h0
    have hmi : (markRunning live table)[i]? =
        some (if r0.docker_name ∈ live then { r0 with status := Status.RUNNING } else r0) := by
      rw [markRunning_eq_map, List.getElem?_map, h0]
      rfl
    by_cases hmem : r0.docker_name ∈ live
    · rw [if_pos hmem] at hmi
      rcases hframe i _ hmi with h1 | h1
      · exact ⟨_, by rw [htab, h1], Or.inr (Or.inl ⟨rfl, hmem⟩)⟩
      · refine ⟨{ r0 with status := Status.STOPPED }, ?_, Or.inr (Or.inr rfl)⟩
        rw [htab]
        convert h1 using 3
    · rw [if_neg hmem] at hmi
      rcases hframe i _ hmi with h1 | h1
      · exact ⟨r0, by rw [htab, h1], Or.inl rfl⟩
      · exact ⟨_, by rw [htab, h1], Or.inr (Or.inr rfl)⟩

/-- C5 witness: `run_cycle_status_frame` applied to a concrete successful
pass over a one-record table. -/
theorem run_cycle_status_frame_witness :
    (⟨[⟨"bn", "sy", [0], "p", Status.PENDING, "c"⟩], [], []⟩ : CycleResult).table.length
      = [(⟨"bn", "sy", [0], "p", Status.PENDING, "c"⟩ : Row)].length :=
  (run_cycle_status_frame [⟨"bn", "sy", [0], "p", Status.PENDING, "c"⟩] [] false
    (fun _ _ => some 1) ⟨[⟨"bn", "sy", [0], "p", Status.PENDING, "c"⟩], [], []⟩ rfl).1

/-- C6 (code bug): `merge(benchmark_template, benchmark_config)` at line 55
mutates the template object stored in the configuration.  After processing a
benchmark that references template "T" (whose keys were ["active", "x"]),
the stored template's keys have become ["active", "x", "benchmark-template",
"y"] (first conjunct); a second benchmark referencing "T" then merges onto
the polluted template and inherits the first benchmark's key "y" (second
conjunct). -/
theorem generate_template_mutation :
    (((resolve_and_merge
        [("T", Val.dict [("active", Val.bool true), ("x", Val.int 1)])]
        [("benchmark-template", Val.str "T"), ("y", Val.int 2)]).map
      (fun p => ((p.1.lookup "T").map valKeys, p.2.map Prod.fst)))
    = some (some ["active", "x", "benchmark-template", "y"],
            ["active", "x", "benchmark-template", "y"]))
    ∧ ((((resolve_and_merge
        [("T", Val.dict [("active", Val.bool true), ("x", Val.int 1)])]
        [("benchmark-template", Val.str "T"), ("y", Val.int 2)]).bind
          (fun p => resolve_and_merge p.1
            [("benchmark-template", Val.str "T"), ("z", Val.int 3)])).map
        (fun p => p.2.map Prod.fst))
      = some ["active", "x", "benchmark-template", "y", "z"]) :=
  ⟨rfl, rfl⟩

/-- C7: the ParameterExpander contract — the expansion has exactly
product-of-cardinalities length; every assignment pairs each parameter name
with one candidate value of its axis, in axis order; assignments are
pairwise distinct when axis values are; and the enumeration is in the
standard right-fastest-varying cartesian order (mixed-radix indexing: the
n-th assignment takes the (n / |tail product|)-th head value and the
(n % |tail product|)-th tail assignment).  Determinism is immediate since
`product_dict` is a pure function of its input. -/
theorem product_dict_spec {α : Type} (axes : List (String × List α)) :
    ((product_dict axes).length = (axes.map (fun p => p.2.length)).prod)
    ∧ (∀ a ∈ product_dict axes,
        a.map Prod.fst = axes.map (fun p => p.1) ∧
        ∀ (i : Nat) (kv : String × α), a[i]? = some kv →
          ∃ ax, axes[i]? = some ax ∧ kv.1 = ax.1 ∧ kv.2 ∈ ax.2)
    ∧ ((∀ p ∈ axes, p.2.Nodup) → (product_dict axes).Nodup)
    ∧ (∀ (k : String) (v : List α) (rest : List (String × List α)) (n : Nat),
        (product_dict ((k, v) :: rest))[n]? =
          ((v[n / (product_dict rest).length]?).bind fun x =>
            ((product_dict rest)[n % (product_dict rest).length]?).map
              (fun t => (k, x) :: t))) := by
  refine ⟨?_, ?_, ?_, ?_⟩
  · rw [product_dict, List.length_map, product_length, List.map_map]
    rfl
  · intro a ha
    rw [product_dict, List.mem_map] at ha
    obtain ⟨inst, hinst, rfl⟩ := ha
    obtain ⟨hlen, hidx⟩ := mem_product_shape _ inst hinst
    rw [List.length_map] at hlen
    have hkeylen : (axes.map (fun p => p.1)).length = inst.length := by
      rw [List.length_map, hlen]
    constructor
    · exact List.map_fst_zip _ _ (le_of_eq hkeylen)
    · intro i kv hkv
      rw [zip_getElem?] at hkv
      match hk : (axes.map (fun p => p.1))[i]?, hv : inst[i]? with
      | none, _ => rw [hk] at hkv; simp at hkv
      | some key, none => rw [hk, hv] at hkv; simp at hkv
      | some key, some x =>
        rw [hk, hv] at hkv
        simp at hkv
        obtain ⟨l, hl, hxl⟩ := hidx i x hv
        rw [List.getElem?_map] at hk hl
        match hax : axes[i]? with
        | none => rw [hax] at hk; simp at hk
        | some ax =>
          rw [hax] at hk hl
          simp at hk hl
          refine ⟨ax, rfl, ?_, ?_⟩
          · rw [← hkv]; simp [hk]
          · rw [← hkv]; simpa [hl] using hxl
  · intro hnd
    rw [product_dict]
    have hvals : ∀ l ∈ axes.map (fun p => p.2), l.Nodup := by
      intro l hl
      rw [List.mem_map] at hl
      obtain ⟨p, hp, rfl⟩ := hl
      exact hnd p hp
    refine (product_nodup _ hvals).map_on ?_
    intro inst1 h1 inst2 h2 heq
    have hl1 : inst1.length = (axes.map (fun p => p.2)).length := (mem_product_shape _ _ h1).1
    have hl2 : inst2.length = (axes.map (fun p => p.2)).length := (mem_product_shape _ _ h2).1
    have hk1 : inst1.length ≤ (axes.map (fun p => p.1)).length := by
      rw [hl1]; simp
    have hk2 : inst2.length ≤ (axes.map (fun p => p.1)).length := by
      rw [hl2]; simp
    have := congrArg (List.map Prod.snd) heq
    rwa [List.map_snd_zip _ _ hk1, List.map_snd_zip _ _ hk2] at this
  · intro k v rest n
    rw [show product_dict ((k, v) :: rest)
        = (product_ (v :: rest.map (fun p => p.2))).map
            (fun inst => ((k :: rest.map (fun p => p.1)).zip inst)) from rfl]
    rw [List.getElem?_map, product_getElem?]
    rw [show (product_dict rest).length = (product_ (rest.map (fun p => p.2))).length by
      rw [product_dict, List.length_map]]
    cases v[n / (product_ (rest.map (fun p => p.2))).length]? with
    | none => simp
    | some x =>
      rw [show product_dict rest
          = (product_ (rest.map (fun p => p.2))).map
              (fun inst => ((rest.map (fun p => p.1)).zip inst)) from rfl]
      rw [List.getElem?_map]
      cases (product_ (rest.map (fun p => p.2)))[n %
          (product_ (rest.map (fun p => p.2))).length]? with
      | none => simp
      | some t => simp

/-- C7 witness: `product_dict_spec` at the concrete axes
batch-size [32, 64] and epochs [1]: exactly 2 distinct assignments. -/
theorem product_dict_spec_witness :
    ((product_dict [("batch-size", [32, 64]), ("epochs", [(1 : Nat)])]).length = 2)
    ∧ (product_dict [("batch-size", [32, 64]), ("epochs", [(1 : Nat)])]).Nodup := by
  have h := product_dict_spec [("batch-size", [32, 64]), ("epochs", [(1 : Nat)])]
  exact ⟨by rw [h.1]; rfl, h.2.2.1 (by decide)⟩

/-- C8 counterexample: eligibility does not use the occupancy snapshot taken
at the start of the pass.  With an occupancy stream whose start-of-pass query
(query 0) reports device 0 busy but whose later queries report it idle, the
single PENDING record is launched even though the start-of-pass snapshot sums
to 1 — refuting the claim instance. -/
theorem run_cycle_single_snapshot_cex :
    ¬ (∀ (res : CycleResult),
        run_cycle [⟨"bn", "sy", [0], "x", Status.PENDING, "c"⟩] [] false
            (fun q d => if d = 0 then some (if q = 0 then 1 else 0) else none)
          = Except.ok res →
        (0 ∈ res.launched ↔
          sumDevices ((fun (q d : Nat) =>
              if d = 0 then some (if q = 0 then 1 else 0) else none) 0)
            [0] = Except.ok 0)) := by
  intro h
  have := (h ⟨[⟨"bn", "sy", [0], "x", Status.PENDING, "c"⟩], [0], ["c"]⟩ rfl).mp (by decide)
  have h1 : sumDevices ((fun (q d : Nat) =>
      if d = 0 then some (if q = 0 then 1 else 0) else none) 0) [0] = Except.ok 1 := rfl
  rw [h1] at this
  simp at this

/-- C8 amended theorem: within one pass, each PENDING snapshot row's
launch-eligibility decision uses a fresh occupancy snapshot queried
immediately before that row's check — query `1 + countPending (prefix)` of
the pass, where query 0 is the start-of-pass snapshot (which eligibility
never uses). -/
theorem run_cycle_fresh_occupancy (table : List Row) (live : List String) (im : Bool)
    (occ : Nat → Nat → Option Nat) (i : Nat) (r : Row) (res : CycleResult)
    (hrun : run_cycle table live im occ = Except.ok res)
    (hi : (markRunning live table)[i]? = some r) (hp : r.status = Status.PENDING) :
    i ∈ res.launched ↔
      sumDevices (occ (1 + countPending ((markRunning live table).take i))) r.devices
        = Except.ok 0 := by
  obtain ⟨st', hrr, htab, hlau⟩ := run_cycle_ok_elim hrun
  have henum : (markRunning live table).enum = (markRunning live table).enumFrom 0 := rfl
  rw [henum] at hrr
  have := runRows_launch_aux (markRunning live table) 0 _ st' hrr (by simp) i r hi hp
  rw [Nat.zero_add] at this
  rw [hlau, this]

/-- C8 amended witness: `run_cycle_fresh_occupancy` on a one-record table
with a stream that is busy at query 0 and idle from query 1 on: the record is
launched because its (fresh) query 1 reports zero processes. -/
theorem run_cycle_fresh_occupancy_witness :
    (0 ∈ ([0] : List Nat)) ↔
      sumDevices ((fun (q _ : Nat) => if q = 0 then some 1 else some 0) 1) [0]
        = Except.ok 0 :=
  run_cycle_fresh_occupancy [⟨"bn", "sy", [0], "x", Status.PENDING, "c"⟩] [] false
    (fun q _ => if q = 0 then some 1 else some 0) 0
    ⟨"bn", "sy", [0], "x", Status.PENDING, "c"⟩
    ⟨[⟨"bn", "sy", [0], "x", Status.PENDING, "c"⟩], [0], ["c"]⟩
    rfl rfl rfl

/-- C9 (code bug): a dispatch-time KeyError for one record aborts the whole
reconciliation pass.  With the first PENDING record assigned device 5, absent
from the occupancy mapping, `run_cycle` raises KeyError(5): the second record
is never evaluated and no table is persisted, contradicting the claim that
each record's dispatch is isolated. -/
theorem run_cycle_keyError_aborts :
    run_cycle
      [⟨"bn", "sy", [5], "p1", Status.PENDING, "c1"⟩,
        ⟨"bn", "sy", [0], "p2", Status.PENDING, "c2"⟩]
      [] false (fun _ d => if d = 0 then some 0 else none)
    = Except.error (RunErr.keyError 5) := rfl

/-- C10: with an empty live-container list the `container` loop variable of
line 180 is never bound, so any table holding a RUNNING record makes the pass
raise NameError at line 187 and abort before persisting (the `isSome`
hypothesis rules out an earlier KeyError from a PENDING row's missing
device). -/
theorem run_cycle_nameError (table : List Row) (im : Bool) (occ : Nat → Nat → Option Nat)
    (hex : ∃ r ∈ table, r.status = Status.RUNNING)
    (hocc : ∀ r ∈ table, r.status = Status.PENDING → ∀ q, ∀ d ∈ r.devices, (occ q d).isSome) :
    run_cycle table [] im occ = Except.error RunErr.nameError := by
  have hrr := runRows_nameError im occ table 0
    { cur := table, queryIdx := 1, launched := [], executed := [] } hex hocc
  show (match runRows [] none im occ (table.enumFrom 0)
      { cur := table, queryIdx := 1, launched := [], executed := [] } with
    | Except.error e => Except.error e
    | Except.ok st =>
        Except.ok ({ table := st.cur, launched := st.launched, executed := st.executed } : CycleResult))
      = Except.error RunErr.nameError
  rw [hrr]

/-- C10 witness: a single RUNNING record with an empty live list makes the
pass fail with the unbound-variable error. -/
theorem run_cycle_nameError_witness :
    run_cycle [⟨"bn", "sy", [0], "r", Status.RUNNING, "c"⟩] [] false (fun _ _ => some 0)
      = Except.error RunErr.nameError :=
  run_cycle_nameError [⟨"bn", "sy", [0], "r", Status.RUNNING, "c"⟩] false (fun _ _ => some 0)
    ⟨⟨"bn", "sy", [0], "r", Status.RUNNING, "c"⟩, by simp, rfl⟩
    (fun r hr hp q d hd => by
      simp at hr
      rw [hr] at hp
      exact absurd hp (by decide))

end Benchmarks
